import Mathlib

/-!
Verification of the engine sound synthesizer core (gen.rs, utils.rs,
recorder.rs, exactstreamer.rs, main.rs) against its specification.

Modelling conventions:
* `f32` scalars are modelled as `ℚ` where only field updates, clamping and
  exact arithmetic matter, and as `ℝ` where trigonometric functions appear.
* The SIMD vector width chosen at runtime is a parameter `W`; the source
  computes `get_best_simd_size` from it identically for every width.
* Rust `x as usize` on a nonnegative float is `Int.toNat ∘ Int.floor`
  (truncation toward zero, saturating at 0 for negative inputs).
* Stateful methods become functions from the state structure to an updated
  state structure (paired with the returned value where the source returns
  one).
-/

/-! ### LoopBuffer (gen.rs) -/

/-- Model of `LoopBuffer`: a fixed-length ring of floats with a
monotonically increasing write position, SIMD-padded backing storage. -/
structure LoopBuffer where
  delay : ℚ
  len : ℕ
  data : List ℚ
  pos : ℕ
  deriving Repr, DecidableEq

/-- Model of `LoopBuffer::get_best_simd_size`: `((size - 1) / W + 1) * W`
for the runtime vector width `W` (the source picks `W` from CPU features;
the arithmetic is identical for every branch). -/
def getBestSimdSize (W size : ℕ) : ℕ :=
  ((size - 1) / W + 1) * W

/-- Model of `LoopBuffer::new`: zero-filled storage padded to the SIMD
width, `delay = len / samples_per_second`, cursor at 0. -/
def LoopBuffer.new (W len samples_per_second : ℕ) : LoopBuffer :=
  { delay := (len : ℚ) / (samples_per_second : ℚ)
    len := len
    data := List.replicate (getBestSimdSize W len) 0
    pos := 0 }

/-- Model of `LoopBuffer::push`: `data[pos % len] = value`; does not
advance. -/
def LoopBuffer.push (b : LoopBuffer) (value : ℚ) : LoopBuffer :=
  { b with data := b.data.set (b.pos % b.len) value }

/-- Model of `LoopBuffer::pop`: returns `data[(pos + 1) % len]`. -/
def LoopBuffer.pop (b : LoopBuffer) : ℚ :=
  b.data.getD ((b.pos + 1) % b.len) 0

/-- Model of `LoopBuffer::advance`: `pos += 1`. -/
def LoopBuffer.advance (b : LoopBuffer) : LoopBuffer :=
  { b with pos := b.pos + 1 }

/-! ### DelayLine (gen.rs) -/

/-- Model of `DelayLine`: thin wrapper over one `LoopBuffer`. -/
structure DelayLine where
  samples : LoopBuffer
  deriving Repr, DecidableEq

/-- Model of `DelayLine::new`. -/
def DelayLine.new (W delay samples_per_second : ℕ) : DelayLine :=
  ⟨LoopBuffer.new W delay samples_per_second⟩

/-- Model of `DelayLine::pop`. -/
def DelayLine.pop (d : DelayLine) : ℚ :=
  d.samples.pop

/-- Model of `DelayLine::push`. -/
def DelayLine.push (d : DelayLine) (sample : ℚ) : DelayLine :=
  ⟨d.samples.push sample⟩

/-- One `push(v); advance();` step on the underlying buffer, the sequence
used in the delay-correctness experiment. -/
def pushAdvance (b : LoopBuffer) (v : ℚ) : LoopBuffer :=
  (b.push v).advance

/-- State of a fresh buffer of logical length `L` after the sequence
`push(v_i); advance();` for each element of `vs` in order. -/
def runPushes (W L sps : ℕ) (vs : List ℚ) : LoopBuffer :=
  vs.foldl pushAdvance (LoopBuffer.new W L sps)

/-- The delay-correctness experiment of the spec: a fresh `DelayLine` of
length `L`, the sequence `push(v_i); advance();` for every element of
`vs`, then one `pop()`. -/
def delayExperiment (W L sps : ℕ) (vs : List ℚ) : ℚ :=
  (runPushes W L sps vs).pop

/-! ### LowPassFilter (gen.rs, deser.rs, utils.rs) -/

/-- Model of `LowPassFilter`: rolling-average filter over a `LoopBuffer`.
The `delay` field (seconds, = 1/cutoff) is the field used by the config
fix-up pass in utils.rs and deser.rs. -/
structure LowPassFilter where
  samples : LoopBuffer
  delay : ℚ
  len : ℚ
  deriving Repr, DecidableEq

/-- Model of `LowPassFilter::filter`: push the sample and advance, then
sum the whole padded storage; if `len` has a nonzero fractional part,
subtract `data[len as usize] * (1 - fract)` before dividing by `len`,
otherwise divide the plain sum by `len`. Returns the updated filter and
the filtered value. -/
def LowPassFilter.filter (lpf : LowPassFilter) (sample : ℚ) : LowPassFilter × ℚ :=
  let samples := (lpf.samples.push sample).advance
  let s := samples.data.sum
  let y :=
    if Int.fract lpf.len ≠ 0 then
      (s - samples.data.getD (⌊lpf.len⌋).toNat 0 * (1 - Int.fract lpf.len)) / lpf.len
    else
      s / lpf.len
  ({ lpf with samples := samples }, y)

/-! ### WaveGuide, Cylinder, Muffler, Engine, Generator (gen.rs) -/

/-- Model of `WaveGuide`: two counter-propagating delay lines with
reflection coefficients and the running outputs of the last `pop`. -/
structure WaveGuide where
  chamber0 : DelayLine
  chamber1 : DelayLine
  alpha : ℚ
  beta : ℚ
  c1_out : ℚ
  c0_out : ℚ
  deriving Repr, DecidableEq

/-- Model of `Cylinder`: three waveguides plus scalar parameters and the
running values `cyl_sound` and `extractor_exhaust`. -/
structure Cylinder where
  crank_offset : ℚ
  exhaust_waveguide : WaveGuide
  intake_waveguide : WaveGuide
  extractor_waveguide : WaveGuide
  intake_open_refl : ℚ
  intake_closed_refl : ℚ
  exhaust_open_refl : ℚ
  exhaust_closed_refl : ℚ
  piston_motion_factor : ℚ
  ignition_factor : ℚ
  ignition_time : ℚ
  cyl_sound : ℚ
  extractor_exhaust : ℚ
  deriving Repr, DecidableEq

/-- Model of `Muffler`. -/
structure Muffler where
  straight_pipe : WaveGuide
  muffler_elements : List WaveGuide
  deriving Repr, DecidableEq

/-- Model of `Engine` (the `intake_noise` RNG is omitted: it is seeded
from the wall clock and none of the verified claims depend on its
values). -/
structure Engine where
  rpm : ℚ
  intake_volume : ℚ
  exhaust_volume : ℚ
  engine_vibrations_volume : ℚ
  cylinders : List Cylinder
  intake_noise_factor : ℚ
  intake_noise_lp : LowPassFilter
  engine_vibration_filter : LowPassFilter
  muffler : Muffler
  intake_valve_shift : ℚ
  exhaust_valve_shift : ℚ
  crankshaft_fluctuation : ℚ
  crankshaft_fluctuation_lp : LowPassFilter
  crankshaft_pos : ℚ
  exhaust_collector : ℚ
  intake_collector : ℚ
  deriving Repr, DecidableEq

/-- Model of `Generator` (the optional `Recorder` handle and the
`gui_graph` scratch vector are omitted: both are IO-side and none of the
verified claims depend on them). -/
structure Generator where
  sampler_duty : ℚ
  volume : ℚ
  samples_per_second : ℕ
  engine : Engine
  dc_lp : LowPassFilter
  waveguides_dampened : Bool
  recording_currently_clipping : Bool
  deriving Repr, DecidableEq

/-- Zeroing of a buffer as done by `reset`: every `data` slot is set to
0; `len`, `pos` and `delay` are untouched. -/
def zeroLoopData (b : LoopBuffer) : LoopBuffer :=
  { b with data := b.data.map (fun _ => 0) }

/-- Zeroing of both chambers of a waveguide as done by `reset` (only the
`data` vectors; `c0_out`, `c1_out`, `alpha`, `beta` are untouched, exactly
as in the source). -/
def zeroChambers (wg : WaveGuide) : WaveGuide :=
  { wg with
    chamber0 := ⟨zeroLoopData wg.chamber0.samples⟩
    chamber1 := ⟨zeroLoopData wg.chamber1.samples⟩ }

/-- Zeroing of a low-pass filter buffer as done by `reset`. -/
def zeroLpfData (lpf : LowPassFilter) : LowPassFilter :=
  { lpf with samples := zeroLoopData lpf.samples }

/-- Model of `Generator::reset`, statement for statement from the source:
it zeroes the chambers of every cylinder waveguide, `extractor_exhaust`
and `cyl_sound`, the straight pipe chambers, `engine_vibration_filter`
(twice in the source), `crankshaft_fluctuation_lp` (twice in the source),
every muffler element chamber, and both collectors.  It does NOT touch
`crankshaft_pos`, `intake_noise_lp`, the `dc_lp` DC blocker, or the
waveguide running outputs `c0_out`/`c1_out`. -/
def Generator.reset (g : Generator) : Generator :=
  { g with
    engine := { g.engine with
      cylinders := g.engine.cylinders.map (fun cyl =>
        { cyl with
          exhaust_waveguide := zeroChambers cyl.exhaust_waveguide
          intake_waveguide := zeroChambers cyl.intake_waveguide
          extractor_waveguide := zeroChambers cyl.extractor_waveguide
          extractor_exhaust := 0
          cyl_sound := 0 })
      muffler := { straight_pipe := zeroChambers g.engine.muffler.straight_pipe
                   muffler_elements := g.engine.muffler.muffler_elements.map zeroChambers }
      engine_vibration_filter := zeroLpfData (zeroLpfData g.engine.engine_vibration_filter)
      crankshaft_fluctuation_lp := zeroLpfData (zeroLpfData g.engine.crankshaft_fluctuation_lp)
      exhaust_collector := 0
      intake_collector := 0 } }

/-! ### Config fix-up on load (utils.rs `fix_engine`) -/

/-- Model of the inner `fix_lpf` of `utils.rs::fix_engine`: recompute
`len = clamp(delay * sample_rate, 1, sample_rate)` and rebuild the buffer
with length `ceil(len)`. -/
def fix_lpf (W : ℕ) (lpf : LowPassFilter) (sample_rate : ℕ) : LowPassFilter :=
  let len := max (min (lpf.delay * (sample_rate : ℚ)) (sample_rate : ℚ)) 1
  { samples := LoopBuffer.new W (⌈len⌉).toNat sample_rate
    delay := lpf.delay
    len := len }

/-- Model of the inner `fix_loop_buffer` of `utils.rs::fix_engine`:
recompute `len = (delay * sample_rate) as usize` (no clamping) and rebuild
zeroed SIMD-padded storage. -/
def fix_loop_buffer (W : ℕ) (lb : LoopBuffer) (sample_rate : ℕ) : LoopBuffer :=
  let len := (⌊lb.delay * (sample_rate : ℚ)⌋).toNat
  { delay := lb.delay
    len := len
    data := List.replicate (getBestSimdSize W len) 0
    pos := 0 }

/-- Fix-up of both chambers of a waveguide (utils.rs applies
`fix_loop_buffer` to every chamber; `alpha`, `beta` and the running
outputs are untouched). -/
def fix_waveguide (W : ℕ) (wg : WaveGuide) (sample_rate : ℕ) : WaveGuide :=
  { wg with
    chamber0 := ⟨fix_loop_buffer W wg.chamber0.samples sample_rate⟩
    chamber1 := ⟨fix_loop_buffer W wg.chamber1.samples sample_rate⟩ }

/-- Model of `utils.rs::fix_engine`: re-derive the three low-pass filters
and every waveguide chamber of the muffler and the cylinders for the
target sample rate.  No other field is modified. -/
def fix_engine (W : ℕ) (e : Engine) (sample_rate : ℕ) : Engine :=
  { e with
    crankshaft_fluctuation_lp := fix_lpf W e.crankshaft_fluctuation_lp sample_rate
    engine_vibration_filter := fix_lpf W e.engine_vibration_filter sample_rate
    intake_noise_lp := fix_lpf W e.intake_noise_lp sample_rate
    muffler := { straight_pipe := fix_waveguide W e.muffler.straight_pipe sample_rate
                 muffler_elements :=
                   e.muffler.muffler_elements.map (fun wg => fix_waveguide W wg sample_rate) }
    cylinders := e.cylinders.map (fun c =>
      { c with
        exhaust_waveguide := fix_waveguide W c.exhaust_waveguide sample_rate
        extractor_waveguide := fix_waveguide W c.extractor_waveguide sample_rate
        intake_waveguide := fix_waveguide W c.intake_waveguide sample_rate }) }

/-! ### Cycle functions (gen.rs, bottom of file), over `ℝ` -/

/-- Model of the constant `PI2F = 2.0 * PI`. -/
noncomputable def PI2F : ℝ := 2 * Real.pi

/-- Model of the constant `PI4F = 4.0 * PI`. -/
noncomputable def PI4F : ℝ := 4 * Real.pi

/-- Model of `gen.rs::exhaust_valve`. -/
noncomputable def exhaust_valve (crank_pos : ℝ) : ℝ :=
  if 3/4 < crank_pos ∧ crank_pos < 1 then -Real.sin (crank_pos * PI4F) else 0

/-- Model of `gen.rs::intake_valve`. -/
noncomputable def intake_valve (crank_pos : ℝ) : ℝ :=
  if 0 < crank_pos ∧ crank_pos < 1/4 then Real.sin (crank_pos * PI4F) else 0

/-- Model of `gen.rs::piston_motion`. -/
noncomputable def piston_motion (crank_pos : ℝ) : ℝ :=
  Real.cos (crank_pos * PI4F)

/-- Model of `gen.rs::fuel_ignition`: `sin(2π (x·t + 0.5))` on
`0 < x < t`, else 0. -/
noncomputable def fuel_ignition (crank_pos ignition_time : ℝ) : ℝ :=
  if 0 < crank_pos ∧ crank_pos < ignition_time then
    Real.sin (PI2F * (crank_pos * ignition_time + 1/2))
  else 0

/-- The fuel-ignition cycle function as the spec words it:
`sin(2π (x − 0.5) / t)` on `0.5 < x < 0.5 + t/2`, else 0 (for comparison
with the source-derived `fuel_ignition`). -/
noncomputable def fuel_ignition_spec (x t : ℝ) : ℝ :=
  if 1/2 < x ∧ x < 1/2 + t / 2 then Real.sin (2 * Real.pi * (x - 1/2) / t) else 0

/-- Model of the exhaust valve modulation computed inside `Cylinder::pop`:
`exhaust_valve(crank + exhaust_valve_shift)` — the source applies no
fractional-part operation. -/
noncomputable def cylinder_ex_valve (crank exhaust_valve_shift : ℝ) : ℝ :=
  exhaust_valve (crank + exhaust_valve_shift)

/-- Model of the intake valve modulation computed inside `Cylinder::pop`:
`intake_valve(crank + intake_valve_shift)` — the source applies no
fractional-part operation. -/
noncomputable def cylinder_in_valve (crank intake_valve_shift : ℝ) : ℝ :=
  intake_valve (crank + intake_valve_shift)

/-- The exhaust valve modulation as the spec words it:
`exhaust_valve(frac(crank + shift))` (for comparison with
`cylinder_ex_valve`). -/
noncomputable def cylinder_ex_valve_spec (crank shift : ℝ) : ℝ :=
  exhaust_valve (Int.fract (crank + shift))

/-- The intake valve modulation as the spec words it:
`intake_valve(frac(crank + shift))` (for comparison with
`cylinder_in_valve`). -/
noncomputable def cylinder_in_valve_spec (crank shift : ℝ) : ℝ :=
  intake_valve (Int.fract (crank + shift))

/-! ### Headless rendering and crossfade (main.rs, utils.rs) -/

/-- Model of `utils.rs::seconds_to_samples`:
`(seconds * sample_rate).max(1.0) as usize`. -/
def seconds_to_samples (seconds : ℚ) (sample_rate : ℕ) : ℕ :=
  (⌊max (seconds * (sample_rate : ℚ)) 1⌋).toNat

/-- The crossfade size computed in `main.rs`:
`seconds_to_samples(crossfade.max(1.0 / sample_rate), sample_rate)`. -/
def crossfade_size (crossfade : ℚ) (sample_rate : ℕ) : ℕ :=
  seconds_to_samples (max crossfade (1 / (sample_rate : ℚ))) sample_rate

/-- The `shifted` vector of the headless crossfade:
`shifted[i] = output[(half_len + i) mod len]`. -/
def shiftedOutput (out : List ℚ) : List ℚ :=
  (List.range out.length).map (fun i => out.getD ((out.length / 2 + i) % out.length) 0)

/-- The spliced vector of the headless crossfade:
`shifted[..half_len] ++ shifted[half_len + crossfade_size/2 ..]`. -/
def splicedOutput (shifted : List ℚ) (cs : ℕ) : List ℚ :=
  shifted.take (shifted.length / 2) ++ shifted.drop (shifted.length / 2 + cs / 2)

/-- The fade loop of the headless crossfade: for `i` in
`half_len - fade_len .. half_len`,
`output[i] = shifted[i]·(1 - f) + shifted[i + fade_len]·f` with
`f = (i - start) / fade_len`. -/
def fadeSamples (spliced shifted : List ℚ) (half fade_len : ℕ) : List ℚ :=
  (List.range fade_len).foldl
    (fun acc k =>
      acc.set (half - fade_len + k)
        (shifted.getD (half - fade_len + k) 0 * (1 - (k : ℚ) / (fade_len : ℚ)) +
         shifted.getD (half - fade_len + k + fade_len) 0 * ((k : ℚ) / (fade_len : ℚ))))
    spliced

/-- The full crossfade transformation applied to the recorded buffer in
`main.rs` when `--crossfade` is given. -/
def crossfadedOutput (out : List ℚ) (cs : ℕ) : List ℚ :=
  fadeSamples (splicedOutput (shiftedOutput out) cs) (shiftedOutput out)
    (out.length / 2) (cs / 2)

/-- The headless crossfade step including the length guard of `main.rs`
(`crossfade_size >= output.len()` exits with code 4, modelled as
`none`). -/
def headlessCrossfade (crossfade : ℚ) (sample_rate : ℕ) (out : List ℚ) :
    Option (List ℚ) :=
  let cs := crossfade_size crossfade sample_rate
  if out.length ≤ cs then none else some (crossfadedOutput out cs)

/-! ### ExactStreamer (exactstreamer.rs) -/

/-- Loop of `ExactStreamer::fill` modelled on a queue of batches: `need`
samples are still missing, `acc` is the filled prefix of `out`, `rem` the
current remainder content.  Each iteration receives one batch; an empty
queue models a closed (disconnected) channel, returned as `Except.error`.
On success it returns the filled output, the new remainder content and the
unconsumed queue. -/
def fillGo : List (List ℚ) → ℕ → List ℚ → List ℚ →
    Except Unit (List ℚ × List ℚ × List (List ℚ))
  | chan, 0, acc, rem => .ok (acc, rem, chan)
  | [], _ + 1, _, _ => .error ()
  | b :: rest, need + 1, acc, rem =>
      if need + 1 < b.length then
        .ok (acc ++ b.take (need + 1), b.drop (need + 1), rest)
      else
        fillGo rest (need + 1 - b.length) (acc ++ b) rem

/-- Model of `ExactStreamer::fill` into an output of length `n`: first
copy `min(remainder_len, n)` samples out of the remainder and slide the
remainder down, then loop on the channel. -/
def exactFill (remainder : List ℚ) (chan : List (List ℚ)) (n : ℕ) :
    Except Unit (List ℚ × List ℚ × List (List ℚ)) :=
  let i := min remainder.length n
  fillGo chan (n - i) (remainder.take i) (remainder.drop i)

/-! ### Recorder (recorder.rs) -/

/-- Sample formats of the WAV header (hound `SampleFormat`). -/
inductive SampleFormat where
  | float : SampleFormat
  | int : SampleFormat
  deriving Repr, DecidableEq

/-- WAV header parameters (hound `WavSpec`). -/
structure WavSpec where
  channels : ℕ
  sample_rate : ℕ
  bits_per_sample : ℕ
  sample_format : SampleFormat
  deriving Repr, DecidableEq

/-- Model of the `WavSpec` literal built in `Recorder::start`. -/
def recorderWavSpec (sample_rate : ℕ) : WavSpec :=
  { channels := 1
    sample_rate := sample_rate
    bits_per_sample := 16
    sample_format := SampleFormat.int }

/-- Rust float-to-integer cast `as i16` for in-range values: truncation
toward zero. -/
def ratTruncToInt (q : ℚ) : ℤ :=
  if 0 ≤ q then ⌊q⌋ else ⌈q⌉

/-- Model of the per-sample conversion of the main receive loop of the
recorder worker: `(sample.max(-1.0).min(1.0) * i16::MAX) as i16`, mapped
over one queued batch. -/
def recorderLoopWrite (samples : List ℚ) : List ℤ :=
  samples.map (fun sample => ratTruncToInt (min (max sample (-1)) 1 * 32767))

/-- Model of the per-sample conversion of the final drain loop of the
recorder worker (textually identical to the main loop in the source). -/
def recorderDrainWrite (samples : List ℚ) : List ℤ :=
  samples.map (fun sample => ratTruncToInt (min (max sample (-1)) 1 * 32767))

/-! ### Concrete instances used by the closed theorems -/

/-- A one-slot zeroed buffer. -/
def zeroBuf1 : LoopBuffer := { delay := 0, len := 1, data := [0], pos := 0 }

/-- A minimal waveguide over one-slot chambers. -/
def exampleWaveGuide : WaveGuide :=
  { chamber0 := ⟨zeroBuf1⟩, chamber1 := ⟨zeroBuf1⟩
    alpha := 0, beta := 0, c1_out := 0, c0_out := 0 }

/-- An engine state as it looks mid-playback: the crankshaft has advanced
to 1/2 and the intake-noise low-pass buffer holds a nonzero sample. -/
def exampleEngine : Engine :=
  { rpm := 4000, intake_volume := 1/3, exhaust_volume := 1/3
    engine_vibrations_volume := 1/3
    cylinders := []
    intake_noise_factor := 1
    intake_noise_lp := { samples := { delay := 1, len := 1, data := [3], pos := 5 }
                         delay := 1, len := 1 }
    engine_vibration_filter := { samples := zeroBuf1, delay := 1, len := 1 }
    muffler := { straight_pipe := exampleWaveGuide, muffler_elements := [] }
    intake_valve_shift := 0, exhaust_valve_shift := 0
    crankshaft_fluctuation := 0
    crankshaft_fluctuation_lp := { samples := zeroBuf1, delay := 1, len := 1 }
    crankshaft_pos := 1/2, exhaust_collector := 0, intake_collector := 0 }

/-- A generator state as it looks mid-playback: `exampleEngine` plus a
DC-blocker buffer holding a nonzero sample. -/
def exampleGenerator : Generator :=
  { sampler_duty := 0, volume := 1/10, samples_per_second := 48000
    engine := exampleEngine
    dc_lp := { samples := { delay := 2, len := 1, data := [4], pos := 7 }
               delay := 2, len := 2 }
    waveguides_dampened := false, recording_currently_clipping := false }

/-- An engine whose config carries out-of-range parameters: a straight
pipe reflectivity of 2 and an rpm of -5. -/
def outOfRangeEngine : Engine :=
  { exampleEngine with
    rpm := -5
    muffler := { straight_pipe := { exampleWaveGuide with alpha := 2, beta := -3/2 }
                 muffler_elements := [] } }

/-- The low-pass filter state used by the C6 witness: fractional length
3/2, buffer of physical size 4 with two zero padding slots. -/
def lpfExample : LowPassFilter :=
  { samples := { delay := 2/3, len := 2, data := [2, 5, 0, 0], pos := 0 }
    delay := 2/3, len := 3/2 }

/-! ### Basic LoopBuffer lemmas -/

theorem le_getBestSimdSize (W L : ℕ) (hW : 0 < W) : L ≤ getBestSimdSize W L := by
  unfold getBestSimdSize
  have h := Nat.div_add_mod (L - 1) W
  have h2 : (L - 1) % W < W := Nat.mod_lt _ hW
  have h3 : ((L - 1) / W + 1) * W = W * ((L - 1) / W) + W := by ring
  rw [h3]
  generalize W * ((L - 1) / W) = t at h ⊢
  omega

theorem runPushes_nil (W L sps : ℕ) : runPushes W L sps [] = LoopBuffer.new W L sps := rfl

theorem runPushes_append (W L sps : ℕ) (vs : List ℚ) (v : ℚ) :
    runPushes W L sps (vs ++ [v]) = pushAdvance (runPushes W L sps vs) v := by
  simp [runPushes]

theorem runPushes_len (W L sps : ℕ) (vs : List ℚ) :
    (runPushes W L sps vs).len = L := by
  induction vs using List.reverseRecOn with
  | nil => rfl
  | append_singleton vs v ih =>
      rw [runPushes_append]
      simpa [pushAdvance, LoopBuffer.push, LoopBuffer.advance] using ih

theorem runPushes_pos (W L sps : ℕ) (vs : List ℚ) :
    (runPushes W L sps vs).pos = vs.length := by
  induction vs using List.reverseRecOn with
  | nil => rfl
  | append_singleton vs v ih =>
      rw [runPushes_append]
      simp [pushAdvance, LoopBuffer.push, LoopBuffer.advance, ih]

theorem runPushes_data_length (W L sps : ℕ) (vs : List ℚ) :
    (runPushes W L sps vs).data.length = getBestSimdSize W L := by
  induction vs using List.reverseRecOn with
  | nil => simp [runPushes, LoopBuffer.new]
  | append_singleton vs v ih =>
      rw [runPushes_append]
      simp [pushAdvance, LoopBuffer.push, LoopBuffer.advance, ih]

theorem getD_set_eq (l : List ℚ) (i : ℕ) (a : ℚ) (h : i < l.length) :
    (l.set i a).getD i 0 = a := by
  simp [List.getD_eq_getElem?_getD, List.getElem?_set, h]

theorem getD_set_ne (l : List ℚ) (i j : ℕ) (a : ℚ) (h : i ≠ j) :
    (l.set i a).getD j 0 = l.getD j 0 := by
  simp [List.getD_eq_getElem?_getD, List.getElem?_set, h]

theorem getD_replicate_zero (n j : ℕ) : (List.replicate n (0:ℚ)).getD j 0 = 0 := by
  simp [List.getD_eq_getElem?_getD, List.getElem?_replicate]
  split <;> rfl

/-- Ring-buffer characterization: after pushing `vs` into a fresh buffer of
logical length `L` with `push; advance` steps, slot `j < L` holds the most
recent value whose push index was congruent to `j` modulo `L`, which is
`vs[j + L * ((|vs| - 1 - j) / L)]` when `j < |vs|`, and the initial 0
otherwise. -/
theorem runPushes_getD (W L sps : ℕ) (hW : 0 < W) (vs : List ℚ)
    (j : ℕ) (hj : j < L) :
    (runPushes W L sps vs).data.getD j 0 =
      if j < vs.length then vs.getD (j + L * ((vs.length - 1 - j) / L)) 0 else 0 := by
  induction vs using List.reverseRecOn with
  | nil =>
      simp [runPushes, LoopBuffer.new, getD_replicate_zero]
  | append_singleton vs v ih =>
      have hL : 0 < L := Nat.pos_of_ne_zero (by omega)
      rw [runPushes_append]
      have hdata : (pushAdvance (runPushes W L sps vs) v).data =
          (runPushes W L sps vs).data.set (vs.length % L) v := by
        simp [pushAdvance, LoopBuffer.push, LoopBuffer.advance, runPushes_pos, runPushes_len]
      rw [hdata]
      by_cases hjm : j = vs.length % L
      · subst hjm
        have hlt : vs.length % L < (runPushes W L sps vs).data.length := by
          rw [runPushes_data_length]
          exact lt_of_lt_of_le (Nat.mod_lt _ hL) (le_getBestSimdSize W L hW)
        rw [getD_set_eq _ _ _ hlt]
        simp only [List.length_append, List.length_singleton]
        have hmlt : vs.length % L ≤ vs.length := Nat.mod_le _ _
        rw [if_pos (by omega)]
        have hidx : vs.length % L + L * ((vs.length + 1 - 1 - vs.length % L) / L)
            = vs.length := by
          have h1 : vs.length + 1 - 1 - vs.length % L = L * (vs.length / L) := by
            have := Nat.mod_add_div vs.length L
            omega
          rw [h1, Nat.mul_div_cancel_left _ hL, Nat.mod_add_div]
        rw [hidx]
        have : (vs ++ [v]).getD vs.length 0 = v := by
          rw [List.getD_eq_getElem?_getD, List.getElem?_append_right (le_refl _)]
          simp
        exact this.symm
      · rw [getD_set_ne _ _ _ _ (fun h => hjm h.symm)]
        rw [ih]
        simp only [List.length_append, List.length_singleton]
        by_cases hjv : j < vs.length
        · rw [if_pos hjv, if_pos (by omega)]
          -- the division quotient is unchanged because j is not congruent
          -- to vs.length modulo L
          have hq : (vs.length + 1 - 1 - j) / L = (vs.length - 1 - j) / L := by
            clear ih
            have hne : (vs.length - j) % L ≠ 0 := by
              intro h0
              apply hjm
              have hdvd : L ∣ (vs.length - j) := Nat.dvd_of_mod_eq_zero h0
              obtain ⟨k, hk⟩ := hdvd
              have : vs.length = j + L * k := by omega
              rw [this]
              rcases Nat.eq_zero_or_pos k with hk0 | hk0
              · simp [hk0, Nat.mod_eq_of_lt hj]
              · rw [Nat.add_mul_mod_self_left, Nat.mod_eq_of_lt hj]
            have h2 := Nat.mod_add_div (vs.length - j) L
            have h3 : (vs.length - j) % L < L := Nat.mod_lt _ hL
            -- vs.length - j = L*q + r with 1 ≤ r < L, so
            -- vs.length - 1 - j = L*q + (r-1) and vs.length + 1 - 1 - j = L*q + r
            set q := (vs.length - j) / L with hq'
            set r := (vs.length - j) % L with hr'
            have hr1 : 1 ≤ r := by omega
            have ha : vs.length + 1 - 1 - j = r + L * q := by omega
            have hb : vs.length - 1 - j = (r - 1) + L * q := by omega
            rw [ha, hb, Nat.add_mul_div_left _ _ hL, Nat.add_mul_div_left _ _ hL,
              Nat.div_eq_of_lt (by omega), Nat.div_eq_of_lt (by omega)]
          rw [hq]
          -- the read index lies inside vs, so appending v does not change it
          have hidx_lt : j + L * ((vs.length - 1 - j) / L) < vs.length := by
            have hle : (vs.length - 1 - j) / L * L ≤ vs.length - 1 - j :=
              Nat.div_mul_le_self _ _
            rw [Nat.mul_comm] at hle
            set t := L * ((vs.length - 1 - j) / L) with ht
            omega
          rw [List.getD_eq_getElem?_getD, List.getD_eq_getElem?_getD,
            List.getElem?_append_left hidx_lt]
        · by_cases h : j = vs.length
          · exfalso
            apply hjm
            rw [h, Nat.mod_eq_of_lt (h ▸ hj)]
          · rw [if_neg hjv, if_neg (by omega)]

theorem delayExperiment_eq_getD (W L sps : ℕ) (vs : List ℚ) :
    delayExperiment W L sps vs =
      (runPushes W L sps vs).data.getD ((vs.length + 1) % L) 0 := by
  simp [delayExperiment, LoopBuffer.pop, runPushes_pos, runPushes_len]

/-- C3 (counterexample): for `L = 2` and the pushes `v_0 = 1, v_1 = 2`
(so `M = 2 ≥ L`), the subsequent `pop()` does not return
`v_{M-L} = v_0 = 1`; it returns `v_1 = 2`. -/
theorem C3_counterexample :
    delayExperiment 1 2 1 [1, 2] ≠ [(1 : ℚ), 2].getD (2 - 2) 0 := by
  decide

/-- C3 (amended): for a fresh `DelayLine` of length `L` after the sequence
`push(v_i); advance()` for `i = 0..M` (that is, `M` pushes), `pop()`
returns `v_{M+1-L}` when `L ≥ 2` and `M ≥ L - 1` (and 0 when `M < L - 1`),
while for `L = 1` it returns `v_{M-1}` (and 0 when `M = 0`): the read
index is `(M + 1) mod L`, one step ahead of the claimed `v_{M-L}`. -/
theorem C3_delay_amended (W L sps : ℕ) (hW : 0 < W) (hL : 1 ≤ L) (vs : List ℚ) :
    delayExperiment W L sps vs =
      if 2 ≤ L then
        (if L - 1 ≤ vs.length then vs.getD (vs.length + 1 - L) 0 else 0)
      else
        (if 1 ≤ vs.length then vs.getD (vs.length - 1) 0 else 0) := by
  have hL0 : 0 < L := hL
  rw [delayExperiment_eq_getD]
  set M := vs.length with hM
  set j := (M + 1) % L with hj
  have hjL : j < L := Nat.mod_lt _ hL0
  rw [runPushes_getD W L sps hW vs j hjL]
  by_cases hL2 : 2 ≤ L
  · rw [if_pos hL2]
    by_cases hml : L - 1 ≤ M
    · have hM1 : L ≤ M + 1 := by omega
      have hk := Nat.mod_add_div (M + 1) L
      have hk1 : 1 ≤ (M + 1) / L := (Nat.one_le_div_iff hL0).mpr hM1
      have hmul : L * ((M + 1) / L) = L * ((M + 1) / L - 1) + L := by
        conv_lhs => rw [show (M + 1) / L = ((M + 1) / L - 1) + 1 by omega]
        rw [Nat.mul_succ]
      have hjM : j < M := by
        set t := L * ((M + 1) / L) with ht
        set s := L * ((M + 1) / L - 1) with hs
        omega
      rw [if_pos hjM, if_pos hml]
      have hMj : M - 1 - j = (L - 2) + L * ((M + 1) / L - 1) := by
        set t := L * ((M + 1) / L) with ht
        set s := L * ((M + 1) / L - 1) with hs
        omega
      have hdiv : (M - 1 - j) / L = (M + 1) / L - 1 := by
        rw [hMj, Nat.add_mul_div_left _ _ hL0, Nat.div_eq_of_lt (by omega),
          Nat.zero_add]
      rw [hdiv]
      congr 1
      set t := L * ((M + 1) / L) with ht
      set s := L * ((M + 1) / L - 1) with hs
      omega
    · have hlt : M + 1 < L := by omega
      have hjv : j = M + 1 := by
        rw [hj, Nat.mod_eq_of_lt hlt]
      rw [if_neg (by omega), if_neg (by omega)]
  · have hL1 : L = 1 := by omega
    subst hL1
    rw [if_neg hL2]
    have hjv : j = 0 := by rw [hj, Nat.mod_one]
    rw [hjv]
    by_cases hM0 : 1 ≤ M
    · rw [if_pos (show 0 < M by omega), if_pos hM0]
      congr 1
      simp
    · rw [if_neg (show ¬ 0 < M by omega), if_neg (show ¬ 1 ≤ M by omega)]

/-- C3 (witness): the amended delay law evaluated at `L = 2` and pushes
`[1, 2, 3]`: `pop()` returns `v_{M+1-L} = v_2 = 3`. -/
theorem C3_witness : delayExperiment 1 2 1 [1, 2, 3] = 3 := by
  rw [C3_delay_amended 1 2 1 (by norm_num) (by norm_num) [1, 2, 3]]
  decide

/-! ### C1: completeness of reset -/

/-- C1: `Generator::reset` is NOT complete.  Evaluated at a generator
state reached during playback (crankshaft at 1/2, a nonzero sample in the
intake-noise low-pass buffer and in the DC-blocker buffer), `reset` leaves
`crankshaft_pos`, `intake_noise_lp.samples.data` and `dc_lp.samples.data`
unchanged, while a freshly constructed generator has `crankshaft_pos = 0`
and zero-filled filter buffers (`LoopBuffer::new` zero-fills; the
serde-skipped running fields default to 0).  The source zeroes
`engine_vibration_filter` and `crankshaft_fluctuation_lp` twice each and
never touches `intake_noise_lp` — an apparent copy-paste slip — so the
first sample generated after `reset` differs from a fresh generator. -/
theorem C1_reset_incomplete :
    (Generator.reset exampleGenerator).engine.crankshaft_pos = 1/2 ∧
    (Generator.reset exampleGenerator).engine.intake_noise_lp.samples.data = [3] ∧
    (Generator.reset exampleGenerator).dc_lp.samples.data = [4] ∧
    (LoopBuffer.new 1 1 48000).data = [0] ∧
    ((1 : ℚ)/2 ≠ 0 ∧ ([3] : List ℚ) ≠ [0] ∧ ([4] : List ℚ) ≠ [0]) := by
  refine ⟨rfl, rfl, rfl, rfl, by norm_num, by norm_num, by norm_num⟩

/-! ### C2: WAV output format -/

/-- C2 (counterexample): the WAV header built in `Recorder::start` is
16-bit integer PCM, not 32-bit float PCM as claimed. -/
theorem C2_counterexample :
    (recorderWavSpec 48000).bits_per_sample = 16 ∧
    (recorderWavSpec 48000).sample_format ≠ SampleFormat.float := by
  decide

/-- C2 (amended): every WAV file produced by the Recorder is mono,
16-bit INTEGER PCM, and has sample rate equal to the runtime sample rate
passed to `Recorder::new`. -/
theorem C2_wav_format (sample_rate : ℕ) :
    (recorderWavSpec sample_rate).channels = 1 ∧
    (recorderWavSpec sample_rate).bits_per_sample = 16 ∧
    (recorderWavSpec sample_rate).sample_format = SampleFormat.int ∧
    (recorderWavSpec sample_rate).sample_rate = sample_rate :=
  ⟨rfl, rfl, rfl, rfl⟩

/-! ### C10: recorder sample clamping -/

theorem ratTruncToInt_bounds (q : ℚ) (h1 : -32767 ≤ q) (h2 : q ≤ 32767) :
    -32767 ≤ ratTruncToInt q ∧ ratTruncToInt q ≤ 32767 := by
  rw [ratTruncToInt]
  by_cases h : 0 ≤ q
  · rw [if_pos h]
    constructor
    · have : (0 : ℤ) ≤ ⌊q⌋ := Int.floor_nonneg.mpr h
      omega
    · have hle : ⌊q⌋ ≤ ⌊(32767 : ℚ)⌋ := Int.floor_le_floor h2
      have : ⌊(32767 : ℚ)⌋ = 32767 := by norm_num
      omega
  · rw [if_neg h]
    constructor
    · have hle : ⌈(-32767 : ℚ)⌉ ≤ ⌈q⌉ := Int.ceil_le_ceil h1
      have : ⌈(-32767 : ℚ)⌉ = -32767 := by
        rw [show ((-32767 : ℚ)) = ((-32767 : ℤ) : ℚ) by norm_num, Int.ceil_intCast]
      omega
    · have hq0 : q ≤ 0 := le_of_not_le h
      have : ⌈q⌉ ≤ 0 := Int.ceil_le.mpr (by exact_mod_cast hq0)
      omega

/-- C10: every sample value the recorder worker writes — in the main
receive loop and in the textually identical final drain — is first
clamped to [-1, 1] and scaled by `i16::MAX = 32767` before the integer
cast, so every written value lies in [-32767, 32767]; samples whose
magnitude exceeds 1 are written clipped (to ±32767), not rejected. -/
theorem C10_recorder_clamp (samples : List ℚ) :
    recorderDrainWrite samples = recorderLoopWrite samples ∧
    (∀ y ∈ recorderLoopWrite samples, -32767 ≤ y ∧ y ≤ 32767) ∧
    (∀ s : ℚ, 1 ≤ s → recorderLoopWrite [s] = [32767]) ∧
    (∀ s : ℚ, s ≤ -1 → recorderLoopWrite [s] = [-32767]) := by
  refine ⟨rfl, ?_, ?_, ?_⟩
  · intro y hy
    obtain ⟨s, _, hs⟩ := List.mem_map.mp hy
    have hc1 : -1 ≤ min (max s (-1)) 1 :=
      le_min (le_max_right s (-1)) (by norm_num)
    have hc2 : min (max s (-1)) 1 ≤ 1 := min_le_right _ _
    have hq1 : -32767 ≤ min (max s (-1)) 1 * 32767 := by nlinarith
    have hq2 : min (max s (-1)) 1 * 32767 ≤ 32767 := by nlinarith
    rw [← hs]
    exact ratTruncToInt_bounds _ hq1 hq2
  · intro s hs
    simp only [recorderLoopWrite, List.map_cons, List.map_nil]
    have hclamp : min (max s (-1)) 1 = 1 :=
      min_eq_right (le_trans hs (le_max_left s (-1)))
    rw [hclamp, one_mul, ratTruncToInt, if_pos (by norm_num)]
    norm_num
  · intro s hs
    simp only [recorderLoopWrite, List.map_cons, List.map_nil]
    have hmax : max s (-1) = -1 := max_eq_right hs
    have hclamp : min (max s (-1)) 1 = -1 := by
      rw [hmax]
      exact min_eq_left (by norm_num)
    have hval : ratTruncToInt ((-1 : ℚ) * 32767) = -32767 := by
      rw [ratTruncToInt, if_neg (by norm_num),
        show ((-1 : ℚ) * 32767) = ((-32767 : ℤ) : ℚ) by norm_num, Int.ceil_intCast]
    rw [hclamp, hval]

/-- C10 (witness): the recorder conversion applied to the over-range
sample 2 yields the clipped value 32767. -/
theorem C10_witness :
    recorderLoopWrite [2] = [32767] :=
  (C10_recorder_clamp [2]).2.2.1 2 (by norm_num)

/-! ### C8: clamping on config load -/

/-- C8 (counterexample): `fix_engine` performs no clamping of
reflectivities or rpm: an engine loaded with straight-pipe `alpha = 2`
and `rpm = -5` keeps both values, so after load neither `|alpha| ≤ 1`
nor `rpm > 0` holds. -/
theorem C8_counterexample :
    (fix_engine 1 outOfRangeEngine 1).muffler.straight_pipe.alpha = 2 ∧
    (fix_engine 1 outOfRangeEngine 1).rpm = -5 ∧
    ¬ |(2 : ℚ)| ≤ 1 ∧ ¬ (0 : ℚ) < -5 := by
  refine ⟨rfl, rfl, by norm_num, by norm_num⟩

/-- C8 (amended): on config load, `fix_engine` recomputes only the
derived lengths: each low-pass filter length is clamped to
[1, sample_rate]; reflectivities and rpm are NOT clamped — every `alpha`
and `beta` of the muffler and cylinder waveguides and the engine rpm are
returned unchanged, so out-of-range values persist after load (and
waveguide buffer lengths `⌊delay·sr⌋` are not clamped to ≥ 1 either). -/
theorem C8_fix_engine_amended (W : ℕ) (e : Engine) (sample_rate : ℕ)
    (hsr : 1 ≤ sample_rate) :
    (fix_engine W e sample_rate).rpm = e.rpm ∧
    (fix_engine W e sample_rate).muffler.straight_pipe.alpha
      = e.muffler.straight_pipe.alpha ∧
    (fix_engine W e sample_rate).muffler.straight_pipe.beta
      = e.muffler.straight_pipe.beta ∧
    ((fix_engine W e sample_rate).muffler.muffler_elements.map
        (fun wg => (wg.alpha, wg.beta)))
      = e.muffler.muffler_elements.map (fun wg => (wg.alpha, wg.beta)) ∧
    ((fix_engine W e sample_rate).cylinders.map
        (fun c => (c.exhaust_waveguide.alpha, c.intake_waveguide.alpha,
                   c.extractor_waveguide.alpha, c.exhaust_waveguide.beta,
                   c.intake_waveguide.beta, c.extractor_waveguide.beta)))
      = e.cylinders.map
        (fun c => (c.exhaust_waveguide.alpha, c.intake_waveguide.alpha,
                   c.extractor_waveguide.alpha, c.exhaust_waveguide.beta,
                   c.intake_waveguide.beta, c.extractor_waveguide.beta)) ∧
    (1 ≤ (fix_engine W e sample_rate).intake_noise_lp.len ∧
      (fix_engine W e sample_rate).intake_noise_lp.len ≤ sample_rate) ∧
    (1 ≤ (fix_engine W e sample_rate).engine_vibration_filter.len ∧
      (fix_engine W e sample_rate).engine_vibration_filter.len ≤ sample_rate) ∧
    (1 ≤ (fix_engine W e sample_rate).crankshaft_fluctuation_lp.len ∧
      (fix_engine W e sample_rate).crankshaft_fluctuation_lp.len ≤ sample_rate) ∧
    (fix_engine W e sample_rate).muffler.straight_pipe.chamber0.samples.len
      = (⌊e.muffler.straight_pipe.chamber0.samples.delay * (sample_rate : ℚ)⌋).toNat := by
  have hsrQ : (1 : ℚ) ≤ (sample_rate : ℚ) := by exact_mod_cast hsr
  have h4 : ((fix_engine W e sample_rate).muffler.muffler_elements.map
        (fun wg => (wg.alpha, wg.beta)))
      = e.muffler.muffler_elements.map (fun wg => (wg.alpha, wg.beta)) := by
    show ((e.muffler.muffler_elements.map
        (fun wg => fix_waveguide W wg sample_rate)).map (fun wg => (wg.alpha, wg.beta)))
      = e.muffler.muffler_elements.map (fun wg => (wg.alpha, wg.beta))
    rw [List.map_map]
    rfl
  have h5 : ((fix_engine W e sample_rate).cylinders.map
        (fun c => (c.exhaust_waveguide.alpha, c.intake_waveguide.alpha,
                   c.extractor_waveguide.alpha, c.exhaust_waveguide.beta,
                   c.intake_waveguide.beta, c.extractor_waveguide.beta)))
      = e.cylinders.map
        (fun c => (c.exhaust_waveguide.alpha, c.intake_waveguide.alpha,
                   c.extractor_waveguide.alpha, c.exhaust_waveguide.beta,
                   c.intake_waveguide.beta, c.extractor_waveguide.beta)) := by
    show ((e.cylinders.map (fun c =>
        { c with
          exhaust_waveguide := fix_waveguide W c.exhaust_waveguide sample_rate
          extractor_waveguide := fix_waveguide W c.extractor_waveguide sample_rate
          intake_waveguide := fix_waveguide W c.intake_waveguide sample_rate })).map
        (fun c => (c.exhaust_waveguide.alpha, c.intake_waveguide.alpha,
                   c.extractor_waveguide.alpha, c.exhaust_waveguide.beta,
                   c.intake_waveguide.beta, c.extractor_waveguide.beta)))
      = _
    rw [List.map_map]
    rfl
  refine ⟨rfl, rfl, rfl, h4, h5,
    ⟨le_max_right _ _, max_le (min_le_right _ _) hsrQ⟩,
    ⟨le_max_right _ _, max_le (min_le_right _ _) hsrQ⟩,
    ⟨le_max_right _ _, max_le (min_le_right _ _) hsrQ⟩, rfl⟩

/-- C8 (witness): the amended load behaviour evaluated on
`outOfRangeEngine` at sample rate 1: the rpm survives unchanged. -/
theorem C8_witness :
    (fix_engine 1 outOfRangeEngine 1).rpm = outOfRangeEngine.rpm :=
  (C8_fix_engine_amended 1 outOfRangeEngine 1 (by norm_num)).1

/-! ### C4: valve shift convention -/

/-- C4 (counterexample): at crank = 7/10 ∈ [0,1) and intake shift
= 17/40 ∈ [-1/2, 1/2], the source computes
`intake_valve(7/10 + 17/40) = intake_valve(9/8) = 0`, while the claimed
convention `intake_valve(frac(9/8)) = intake_valve(1/8) = sin(π/2) = 1`:
the shift is NOT wrapped by a fractional-part operation. -/
theorem C4_counterexample :
    cylinder_in_valve (7/10) (17/40) = 0 ∧
    cylinder_in_valve_spec (7/10) (17/40) = 1 ∧
    cylinder_in_valve (7/10) (17/40) ≠ cylinder_in_valve_spec (7/10) (17/40) := by
  have hsum : (7/10 : ℝ) + 17/40 = 9/8 := by norm_num
  have h1 : cylinder_in_valve (7/10) (17/40) = 0 := by
    rw [cylinder_in_valve, hsum, intake_valve, if_neg (by norm_num)]
  have hfract : Int.fract ((7/10 : ℝ) + 17/40) = 1/8 := by
    rw [hsum, Int.fract]
    have : ⌊(9/8 : ℝ)⌋ = 1 := by
      apply Int.floor_eq_iff.mpr
      constructor <;> norm_num
    rw [this]
    norm_num
  have h2 : cylinder_in_valve_spec (7/10) (17/40) = 1 := by
    rw [cylinder_in_valve_spec, hfract, intake_valve, if_pos (by norm_num)]
    have harg : (1/8 : ℝ) * PI4F = Real.pi / 2 := by
      rw [PI4F]; ring
    rw [harg, Real.sin_pi_div_two]
  exact ⟨h1, h2, by rw [h1, h2]; norm_num⟩

/-- C4 (amended): in `Cylinder::pop` the valve shift is added WITHOUT any
fractional-part operation: the modulations are
`exhaust_valve(crank + ev_shift)` and `intake_valve(crank + iv_shift)`
evaluated directly, and for crank ∈ [0,1), shift ∈ [-1/2, 1/2] the valve
functions are evaluated on an argument in [-1/2, 3/2), not [0,1). -/
theorem C4_valve_shift_amended (crank shift : ℝ)
    (h0 : 0 ≤ crank) (h1 : crank < 1) (h2 : -(1/2) ≤ shift) (h3 : shift ≤ 1/2) :
    cylinder_ex_valve crank shift = exhaust_valve (crank + shift) ∧
    cylinder_in_valve crank shift = intake_valve (crank + shift) ∧
    -(1/2) ≤ crank + shift ∧ crank + shift < 3/2 :=
  ⟨rfl, rfl, by linarith, by linarith⟩

/-- C4 (witness): the amended valve-shift law at crank = 0, shift = 0. -/
theorem C4_witness :
    cylinder_ex_valve 0 0 = exhaust_valve (0 + 0) :=
  (C4_valve_shift_amended 0 0 (le_refl 0) (by norm_num) (by norm_num) (by norm_num)).1

/-! ### C5: fuel ignition cycle function -/

/-- C5 (counterexample): at x = 1/4 and t = 1 the source computes
`fuel_ignition(1/4, 1) = sin(2π·(1/4·1 + 1/2)) = sin(3π/2) = -1`, while
the claimed formula gives 0 because its guard `0.5 < x` fails. -/
theorem C5_counterexample :
    fuel_ignition (1/4) 1 = -1 ∧
    fuel_ignition_spec (1/4) 1 = 0 ∧
    fuel_ignition (1/4) 1 ≠ fuel_ignition_spec (1/4) 1 := by
  have h1 : fuel_ignition (1/4) 1 = -1 := by
    rw [fuel_ignition, if_pos (by norm_num)]
    have harg : PI2F * ((1/4 : ℝ) * 1 + 1/2) = Real.pi / 2 + Real.pi := by
      rw [PI2F]; ring
    rw [harg, Real.sin_add_pi, Real.sin_pi_div_two]

  have h2 : fuel_ignition_spec (1/4) 1 = 0 := by
    rw [fuel_ignition_spec, if_neg (by norm_num)]
  exact ⟨h1, h2, by rw [h1, h2]; norm_num⟩

/-- C5 (amended): for every x and t, the fuel-ignition cycle function of
the source satisfies `fuel_ignition(x, t) = -sin(2π·x·t)` when
`0 < x < t`, and 0 otherwise: the ignition time multiplies the crank
position (it does not divide it), the guard is `0 < x < t` (not
`0.5 < x < 0.5 + t/2`), and the phase offset of π flips the sign. -/
theorem C5_fuel_ignition_amended (x t : ℝ) :
    fuel_ignition x t = if 0 < x ∧ x < t then -Real.sin (PI2F * (x * t)) else 0 := by
  rw [fuel_ignition]
  by_cases h : 0 < x ∧ x < t
  · rw [if_pos h, if_pos h]
    have harg : PI2F * (x * t + 1/2) = PI2F * (x * t) + Real.pi := by
      rw [PI2F]; ring
    rw [harg, Real.sin_add_pi]
  · rw [if_neg h, if_neg h]

/-! ### C6: LowPassFilter fractional rolling average -/

theorem sum_eq_take_of_padding (l : List ℚ) (n : ℕ) (hn : n ≤ l.length)
    (hpad : ∀ j < l.length, n ≤ j → l.getD j 0 = 0) :
    l.sum = (l.take n).sum := by
  conv_lhs => rw [← List.take_append_drop n l]
  rw [List.sum_append]
  have hz : (l.drop n).sum = 0 := by
    apply List.sum_eq_zero
    intro x hx
    obtain ⟨i, hi, hget⟩ := List.mem_iff_getElem.mp hx
    rw [List.getElem_drop] at hget
    have hlen : n + i < l.length := by
      rw [List.length_drop] at hi
      omega
    have hz0 := hpad (n + i) hlen (by omega)
    rw [List.getD_eq_getElem l 0 hlen] at hz0
    rw [← hget]
    exact hz0
  rw [hz, add_zero]

/-- C6: `LowPassFilter::filter` first pushes the sample and advances
(conjuncts 1 and 2), keeps the padding slots at indices ≥ `ceil(len)`
zero (conjunct 3), and returns
`(S - data[floor(len)]·(1 - fract(len))) / len` when `fract(len) ≠ 0`
and `S / len` otherwise, where `S` may equivalently be taken over only
the first `ceil(len)` slots: the zero padding never affects the returned
value (conjunct 4). -/
theorem C6_lowpass_filter (lpf : LowPassFilter) (v : ℚ)
    (hlen1 : 1 ≤ lpf.len)
    (hlenN : lpf.samples.len = (⌈lpf.len⌉).toNat)
    (hdl : lpf.samples.len ≤ lpf.samples.data.length)
    (hpad : ∀ j < lpf.samples.data.length, lpf.samples.len ≤ j →
      lpf.samples.data.getD j 0 = 0) :
    (lpf.filter v).1.samples.pos = lpf.samples.pos + 1 ∧
    (lpf.filter v).1.samples.data
      = lpf.samples.data.set (lpf.samples.pos % lpf.samples.len) v ∧
    (∀ j < (lpf.filter v).1.samples.data.length, lpf.samples.len ≤ j →
      (lpf.filter v).1.samples.data.getD j 0 = 0) ∧
    (lpf.filter v).2 =
      (if Int.fract lpf.len ≠ 0 then
        (((lpf.filter v).1.samples.data.take lpf.samples.len).sum
          - (lpf.filter v).1.samples.data.getD (⌊lpf.len⌋).toNat 0
            * (1 - Int.fract lpf.len)) / lpf.len
      else ((lpf.filter v).1.samples.data.take lpf.samples.len).sum / lpf.len) := by
  have hnpos : 0 < lpf.samples.len := by
    rw [hlenN]
    have h1 : (1 : ℤ) ≤ ⌈lpf.len⌉ := by
      have h2 := Int.ceil_le_ceil hlen1
      simpa using h2
    omega
  have hi0lt : lpf.samples.pos % lpf.samples.len < lpf.samples.len :=
    Nat.mod_lt _ hnpos
  have hlen_set :
      (lpf.samples.data.set (lpf.samples.pos % lpf.samples.len) v).length
        = lpf.samples.data.length := List.length_set _ _ _
  have hpad' : ∀ j < (lpf.samples.data.set (lpf.samples.pos % lpf.samples.len) v).length,
      lpf.samples.len ≤ j →
      (lpf.samples.data.set (lpf.samples.pos % lpf.samples.len) v).getD j 0 = 0 := by
    intro j hj hnj
    rw [getD_set_ne _ _ _ _ (by omega)]
    exact hpad j (by omega) hnj
  have hsum : (lpf.samples.data.set (lpf.samples.pos % lpf.samples.len) v).sum
      = ((lpf.samples.data.set (lpf.samples.pos % lpf.samples.len) v).take
          lpf.samples.len).sum :=
    sum_eq_take_of_padding _ _ (by omega) hpad'
  refine ⟨rfl, rfl, hpad', ?_⟩
  show (if Int.fract lpf.len ≠ 0 then
        ((lpf.samples.data.set (lpf.samples.pos % lpf.samples.len) v).sum
          - (lpf.samples.data.set (lpf.samples.pos % lpf.samples.len) v).getD
              (⌊lpf.len⌋).toNat 0 * (1 - Int.fract lpf.len)) / lpf.len
      else (lpf.samples.data.set (lpf.samples.pos % lpf.samples.len) v).sum
        / lpf.len) = _
  rw [hsum]
  rfl

/-- C6 (witness): the filter at `lpfExample` (`len = 3/2`, two padding
slots) with input 7: the theorem's formula applies, and the returned
value evaluates to `(7 + 5 - 5·(1/2)) / (3/2) = 19/3`. -/
theorem C6_witness :
    (lpfExample.filter 7).2 =
      (if Int.fract lpfExample.len ≠ 0 then
        (((lpfExample.filter 7).1.samples.data.take lpfExample.samples.len).sum
          - (lpfExample.filter 7).1.samples.data.getD (⌊lpfExample.len⌋).toNat 0
            * (1 - Int.fract lpfExample.len)) / lpfExample.len
      else ((lpfExample.filter 7).1.samples.data.take lpfExample.samples.len).sum
        / lpfExample.len) ∧
    (lpfExample.filter 7).2 = 19/3 := by
  constructor
  · exact (C6_lowpass_filter lpfExample 7 (by norm_num [lpfExample])
      (by
        simp only [lpfExample]
        rw [show ⌈(3/2 : ℚ)⌉ = 2 by rw [Int.ceil_eq_iff]; norm_num]
        rfl)
      (by norm_num [lpfExample])
      (by
        intro j hj hnj
        simp only [lpfExample] at hj hnj
        norm_num at hj hnj
        interval_cases j <;> rfl)).2.2.2
  · show (if Int.fract lpfExample.len ≠ 0 then _ else _) = (19 : ℚ)/3
    norm_num [lpfExample, LowPassFilter.filter, LoopBuffer.push, LoopBuffer.advance,
      Int.fract]

/-! ### C7: crossfade length law -/

theorem shiftedOutput_length (out : List ℚ) :
    (shiftedOutput out).length = out.length := by
  simp [shiftedOutput]

theorem fadeSamples_length (spliced shifted : List ℚ) (half fade_len : ℕ) :
    (fadeSamples spliced shifted half fade_len).length = spliced.length := by
  unfold fadeSamples
  generalize List.range fade_len = ks
  induction ks generalizing spliced with
  | nil => rfl
  | cons k ks ih =>
      rw [List.foldl_cons, ih]
      exact List.length_set _ _ _

theorem crossfadedOutput_length (out : List ℚ) (cs : ℕ) (h : cs ≤ out.length) :
    (crossfadedOutput out cs).length = out.length - cs / 2 := by
  unfold crossfadedOutput splicedOutput
  rw [fadeSamples_length, List.length_append, List.length_take, List.length_drop,
    shiftedOutput_length]
  omega

/-- C7: for every crossfade with `0 < crossfade < record`, sample rate
`sr ≥ 1` and integral recording sample count `record · sr = R ≥ 2`, the
headless crossfade does not exit (guard passes) and the final output
handed to the Recorder has exactly `R - F` samples with
`F = ⌊crossfade · sr / 2⌋`. -/
theorem C7_crossfade_length (record crossfade : ℚ) (sr R : ℕ) (out : List ℚ)
    (hsr : 1 ≤ sr) (hR : 2 ≤ R) (hrec : record * (sr : ℚ) = (R : ℚ))
    (hc0 : 0 < crossfade) (hcr : crossfade < record)
    (hout : out.length = seconds_to_samples record sr) :
    headlessCrossfade crossfade sr out
      = some (crossfadedOutput out (crossfade_size crossfade sr)) ∧
    (crossfadedOutput out (crossfade_size crossfade sr)).length
      = R - ⌊crossfade * (sr : ℚ) / 2⌋₊ := by
  have hsrQ : (1 : ℚ) ≤ (sr : ℚ) := by exact_mod_cast hsr
  have hsrpos : (0 : ℚ) < (sr : ℚ) := by linarith
  have hN : seconds_to_samples record sr = R := by
    unfold seconds_to_samples
    rw [hrec, max_eq_left (by exact_mod_cast (by omega : 1 ≤ R)),
      Int.floor_natCast]
    omega
  set C : ℚ := crossfade * (sr : ℚ) with hC
  have hCpos : 0 < C := mul_pos hc0 hsrpos
  have hCR : C < (R : ℚ) := by
    rw [hC, ← hrec]
    exact mul_lt_mul_of_pos_right hcr hsrpos
  have hcs : crossfade_size crossfade sr = (⌊max C 1⌋).toNat := by
    show (⌊max (max crossfade (1 / (sr : ℚ)) * (sr : ℚ)) 1⌋).toNat
      = (⌊max C 1⌋).toNat
    rw [max_mul_of_nonneg _ _ (le_of_lt hsrpos), one_div,
      inv_mul_cancel₀ (ne_of_gt hsrpos), max_assoc, max_self]
  have hcs2 : crossfade_size crossfade sr / 2 = ⌊C / 2⌋₊ := by
    rcases le_or_lt 1 C with h1 | h1
    · rw [hcs, max_eq_left h1, Int.floor_toNat]
      have h2 := Nat.floor_div_nat C 2
      rw [show ((2 : ℕ) : ℚ) = (2 : ℚ) by norm_num] at h2
      exact h2.symm
    · rw [hcs, max_eq_right h1.le]
      have hC2 : ⌊C / 2⌋₊ = 0 := Nat.floor_eq_zero.mpr (by linarith)
      rw [hC2, Int.floor_one]
      rfl
  have hcsN : crossfade_size crossfade sr < out.length := by
    rw [hout, hN, hcs]
    have h1 : max C 1 < (R : ℚ) :=
      max_lt hCR (by exact_mod_cast (by omega : 1 < R))
    have h2 : ⌊max C 1⌋ < (R : ℤ) := Int.floor_lt.mpr (by exact_mod_cast h1)
    omega
  constructor
  · show (if out.length ≤ crossfade_size crossfade sr then none
      else some (crossfadedOutput out (crossfade_size crossfade sr))) = _
    rw [if_neg (by omega)]
  · rw [crossfadedOutput_length out _ (le_of_lt hcsN), hout, hN, hcs2]

/-- C7 (witness): record = 2 s, crossfade = 1 s, sample rate 1:
`R = 2`, `F = 0`, the guard passes and the output keeps 2 samples. -/
theorem C7_witness :
    headlessCrossfade 1 1 [0, 0]
      = some (crossfadedOutput [0, 0] (crossfade_size 1 1)) ∧
    (crossfadedOutput [(0 : ℚ), 0] (crossfade_size 1 1)).length
      = 2 - ⌊(1 : ℚ) * ((1 : ℕ) : ℚ) / 2⌋₊ :=
  C7_crossfade_length 2 1 1 2 [0, 0] (by norm_num) (by norm_num) (by norm_num)
    (by norm_num) (by norm_num)
    (by
      show ([(0 : ℚ), 0]).length = (⌊max ((2 : ℚ) * ((1 : ℕ) : ℚ)) 1⌋).toNat
      norm_num
      rfl)

/-! ### C9: ExactStreamer::fill -/

theorem fillGo_step (b : List ℚ) (rest : List (List ℚ)) (m : ℕ) (acc rem : List ℚ) :
    fillGo (b :: rest) (m + 1) acc rem
      = if m + 1 < b.length then
          Except.ok (acc ++ b.take (m + 1), b.drop (m + 1), rest)
        else fillGo rest (m + 1 - b.length) (acc ++ b) rem := rfl

theorem fillGo_error_iff (chan : List (List ℚ)) (need : ℕ) (acc rem : List ℚ) :
    (fillGo chan need acc rem = .error ())
      ↔ (chan.map List.length).sum < need := by
  induction chan generalizing need acc rem with
  | nil =>
      cases need with
      | zero => simp [fillGo]
      | succ m => simp [fillGo]
  | cons b rest ih =>
      cases need with
      | zero => simp [fillGo]
      | succ m =>
          rw [fillGo_step]
          by_cases hb : m + 1 < b.length
          · rw [if_pos hb]
            simp only [List.map_cons, List.sum_cons]
            constructor
            · intro h
              exact absurd h (by simp)
            · intro h
              exact absurd h (by omega)
          · rw [if_neg hb, ih]
            simp only [List.map_cons, List.sum_cons]
            omega

theorem fillGo_ok_length (chan : List (List ℚ)) :
    ∀ (need : ℕ) (acc rem out r : List ℚ) (c : List (List ℚ)),
    fillGo chan need acc rem = .ok (out, r, c) → out.length = acc.length + need := by
  induction chan with
  | nil =>
      intro need acc rem out r c h
      cases need with
      | zero =>
          simp only [fillGo, Except.ok.injEq, Prod.mk.injEq] at h
          obtain ⟨h1, -, -⟩ := h
          rw [← h1]
          omega
      | succ m => simp [fillGo] at h
  | cons b rest ih =>
      intro need acc rem out r c h
      cases need with
      | zero =>
          simp only [fillGo, Except.ok.injEq, Prod.mk.injEq] at h
          obtain ⟨h1, -, -⟩ := h
          rw [← h1]
          omega
      | succ m =>
          rw [fillGo_step] at h
          by_cases hb : m + 1 < b.length
          · rw [if_pos hb] at h
            simp only [Except.ok.injEq, Prod.mk.injEq] at h
            obtain ⟨h1, -, -⟩ := h
            rw [← h1, List.length_append, List.length_take]
            omega
          · rw [if_neg hb] at h
            have h2 := ih _ _ _ _ _ _ h
            rw [List.length_append] at h2
            omega

/-- C9: `ExactStreamer::fill` (modelled on a queue of pending batches,
where an exhausted queue models a closed upstream channel) fails with the
`Disconnected` receive error iff the upstream channel closes before the
fill completes, i.e. iff the remainder plus everything the channel can
still deliver holds fewer than `n` samples (conjunct 1); whenever the
remainder already holds at least `n` samples, fill succeeds without
receiving: the channel is returned untouched (conjunct 2); and on success
the output is completely filled: exactly `n` samples (conjunct 3). -/
theorem C9_exactstreamer_fill (remainder : List ℚ) (chan : List (List ℚ)) (n : ℕ) :
    ((exactFill remainder chan n = .error ())
        ↔ remainder.length + (chan.map List.length).sum < n) ∧
    (n ≤ remainder.length →
        exactFill remainder chan n
          = .ok (remainder.take n, remainder.drop n, chan)) ∧
    (∀ out r c, exactFill remainder chan n = .ok (out, r, c) → out.length = n) := by
  refine ⟨?_, ?_, ?_⟩
  · show (fillGo chan (n - min remainder.length n)
        (remainder.take (min remainder.length n))
        (remainder.drop (min remainder.length n)) = .error ()) ↔ _
    rw [fillGo_error_iff]
    omega
  · intro h
    show fillGo chan (n - min remainder.length n)
        (remainder.take (min remainder.length n))
        (remainder.drop (min remainder.length n)) = _
    rw [min_eq_right h, Nat.sub_self]
    cases chan <;> rfl
  · intro out r c h
    have h2 := fillGo_ok_length chan _ _ _ _ _ _ h
    rw [List.length_take] at h2
    omega

/-- C9 (witness): a remainder of 3 samples suffices for a fill of 2
without touching the channel. -/
theorem C9_witness :
    exactFill [1, 2, 3] [] 2 = .ok ([1, 2], [3], []) :=
  (C9_exactstreamer_fill [1, 2, 3] [] 2).2.1 (by norm_num)
